import Mathlib

/-!
Shallow embedding of `cron_sentry/runner.py` (the cron-sentry wrapper).

The runner executes a child command with stdout/stderr redirected to two
temporary byte stores, extracts bounded tails of each store, reports
failures (nonzero exit status) to a Sentry destination, echoes the tails
to the invoking process's streams unless quiet, and exits with the
child's exit status.

Strings produced by Python (`str`) are modelled as `List Char` (a Python
string is a sequence of code points); byte stores as `List Nat` with each
element a byte.  Python dicts are modelled as association lists with
first-match lookup and in-place-overwrite insertion (matching dict
semantics on duplicate-free key lists).
-/

namespace CronSentry

/-- Python string: a sequence of code points. -/
abbrev Str := List Char

/-! ### UTF-8 decoding

Models Python's strict `bytes.decode('utf-8')` (runner.py lines 194 and
197): `none` models a raised `UnicodeDecodeError`.  The decoder is a
byte-at-a-time DFA enforcing RFC 3629 exactly as CPython does: no
overlong forms (the first continuation byte's allowed window depends on
the lead byte), no surrogates (lead `0xED` caps the next byte at `0x9F`),
code points at most `U+10FFFF` (lead at most `0xF4`, and `0xF4` caps the
next byte at `0x8F`). -/

/-- DFA for strict UTF-8 decoding.  `expected` is the number of
continuation bytes still owed for the current sequence, `acc` the partial
code point, and `lo`/`hi` the allowed window for the next continuation
byte (always `0x80`/`0xBF` except right after a lead byte). -/
def utf8DecodeGo (expected acc lo hi : Nat) : List Nat → Option Str
  | [] => if expected = 0 then some [] else none
  | b :: rest =>
    if expected = 0 then
      if b ≤ 0x7F then
        (utf8DecodeGo 0 0 0 0 rest).map (fun cs => Char.ofNat b :: cs)
      else if b ≤ 0xC1 then none
      else if b ≤ 0xDF then utf8DecodeGo 1 (b - 0xC0) 0x80 0xBF rest
      else if b = 0xE0 then utf8DecodeGo 2 0 0xA0 0xBF rest
      else if b = 0xED then utf8DecodeGo 2 (0xED - 0xE0) 0x80 0x9F rest
      else if b ≤ 0xEF then utf8DecodeGo 2 (b - 0xE0) 0x80 0xBF rest
      else if b = 0xF0 then utf8DecodeGo 3 0 0x90 0xBF rest
      else if b ≤ 0xF3 then utf8DecodeGo 3 (b - 0xF0) 0x80 0xBF rest
      else if b = 0xF4 then utf8DecodeGo 3 (0xF4 - 0xF0) 0x80 0x8F rest
      else none
    else
      if lo ≤ b ∧ b ≤ hi then
        if expected = 1 then
          (utf8DecodeGo 0 0 0 0 rest).map
            (fun cs => Char.ofNat (acc * 64 + (b - 0x80)) :: cs)
        else
          utf8DecodeGo (expected - 1) (acc * 64 + (b - 0x80)) 0x80 0xBF rest
      else none

/-- Strict UTF-8 decoder: models Python `bytes.decode('utf-8')`. -/
def utf8Decode (bs : List Nat) : Option Str := utf8DecodeGo 0 0 0 0 bs

/-! ### Python dict model

Association lists with first-match lookup.  `dictSet` models
`d[k] = v` / an entry of `d.update(...)`: an existing key keeps its
position and gets the new value, a fresh key is appended (dict
insertion-order semantics). -/

/-- Lookup in a Python dict (first matching key). -/
def dlookup {α : Type} : List (Str × α) → Str → Option α
  | [], _ => none
  | (k1, v) :: rest, k => if k1 = k then some v else dlookup rest k

/-- Overwrite the value stored under key `k` without moving the entry. -/
def setInPlace {α : Type} : List (Str × α) → Str → α → List (Str × α)
  | [], _, _ => []
  | (k1, v1) :: rest, k, v =>
    if k1 = k then (k, v) :: setInPlace rest k v
    else (k1, v1) :: setInPlace rest k v

/-- Models `d[k] = v` on a Python dict. -/
def dictSet {α : Type} (d : List (Str × α)) (k : Str) (v : α) : List (Str × α) :=
  if (dlookup d k).isSome then setInPlace d k v
  else d ++ [(k, v)]

/-- Models `d.copy()`; dicts are values here, so the copy is the
identity — what matters is that updates are applied to the copy, never
to the original. -/
def dictCopy {α : Type} (d : List (Str × α)) : List (Str × α) := d

/-! ### The tail extractor: `CommandReporter._get_last_lines`
(runner.py lines 189-198). -/

/-- The 3-character truncation marker prepended at runner.py line 197. -/
def ellipsis : Str := ['.', '.', '.']

/-- Models `CommandReporter._get_last_lines(buf)` (runner.py 189-198).
`string_max_length` is Python's `self.string_max_length` (an `int`);
`buf` holds the bytes of the temporary file.  `buf.seek(0, SEEK_END);
buf.tell()` yields the byte size; in the truncating branch
`buf.seek(-(string_max_length - 3), SEEK_END)` positions at byte
`size + 3 - string_max_length` (a seek past EOF makes the subsequent
read return no bytes, matching `List.drop` past the end), and the read
bytes are decoded and prefixed with the marker.  `none` models a raised
`UnicodeDecodeError`. -/
def _get_last_lines (string_max_length : Int) (buf : List Nat) : Option Str :=
  let file_size : Int := buf.length
  if file_size < string_max_length then
    utf8Decode buf
  else
    (utf8Decode (buf.drop (file_size + 3 - string_max_length).toNat)).map
      (fun s => ellipsis ++ s)

/-! ### `_extra_from_env` (runner.py lines 87-95). -/

/-- The fixed prefix scanned for by `_extra_from_env`
(`CRON_SENTRY_EXTRA_`, runner.py line 89; named `env_var_prefix`
there). -/
def env_var_pfx : Str := "CRON_SENTRY_EXTRA_".data

/-- One iteration of the `for k, v in env.items()` loop body of
`_extra_from_env` (runner.py lines 90-94), acting on the accumulated
`res` dict. -/
def extraFromEnvStep (res : List (Str × Str)) (k : Str) (v : Str) : List (Str × Str) :=
  if env_var_pfx.isPrefixOf k then
    let extra_key := k.drop env_var_pfx.length
    if extra_key ≠ [] then dictSet res extra_key v else res
  else res

/-- The `for` loop of `_extra_from_env` over the remaining items. -/
def extraFromEnvLoop (res : List (Str × Str)) : List (Str × Str) → List (Str × Str)
  | [] => res
  | (k, v) :: rest => extraFromEnvLoop (extraFromEnvStep res k v) rest

/-- Models `_extra_from_env(env)` (runner.py 87-95): entries of `env`
whose key starts with the prefix contribute an entry under the
prefix-stripped key, unless the stripped key is empty. -/
def _extra_from_env (env : List (Str × Str)) : List (Str × Str) :=
  extraFromEnvLoop [] env

/-! ### The reporter: `CommandReporter` (runner.py lines 130-198). -/

/-- Python values stored in the `extra` dict of the report: strings,
ints (`exit_status`), and lists of strings (`command`). -/
inductive PyVal : Type where
  | str (s : Str)
  | int (n : Int)
  | strList (l : List Str)
deriving DecidableEq

/-- State of a `CommandReporter` object (constructor at runner.py
131-138): `dsn = none` models Python `None`. -/
structure CommandReporter : Type where
  dsn : Option Str
  command : List Str
  string_max_length : Int
  quiet : Bool
  extra : List (Str × PyVal)
deriving DecidableEq

/-- Reserved metadata key `command` (runner.py line 174). -/
def kCommand : Str := "command".data

/-- Reserved metadata key `exit_status` (runner.py line 175). -/
def kExitStatus : Str := "exit_status".data

/-- Reserved metadata key `last_lines_stdout` (runner.py line 176). -/
def kLastLinesStdout : Str := "last_lines_stdout".data

/-- Reserved metadata key `last_lines_stderr` (runner.py line 177). -/
def kLastLinesStderr : Str := "last_lines_stderr".data

/-- Single-quote character, used by Python `repr` of strings. -/
def squote : Char := Char.ofNat 39

/-- Comma-space separated concatenation, as in Python list `repr`. -/
def commaSep : List Str → Str
  | [] => []
  | [x] => x
  | x :: y :: rest => x ++ ", ".data ++ commaSep (y :: rest)

/-- Python `repr` of a list of strings (escape sequences inside the
strings are not modelled; no claim depends on them). -/
def pyReprStrList (xs : List Str) : Str :=
  "[".data ++ commaSep (xs.map (fun s => squote :: (s ++ [squote]))) ++ "]".data

/-- Models `"Command \"%s\" failed" % (self.command,)`
(runner.py line 169). -/
def failMessage (cmd : List Str) : Str :=
  "Command \"".data ++ pyReprStrList cmd ++ "\" failed".data

/-- The message send handed to the raven client by `captureMessage`
(runner.py lines 180-187): the delivery itself is an external
collaborator; the payload shape is what the core guarantees. -/
structure ReportPayload : Type where
  message : Str
  logger : Str
  extra : List (Str × PyVal)
  time_spent : Int
deriving DecidableEq

/-- Models `extra = self.extra.copy(); extra.update({...})`
(runner.py lines 172-178): the caller-held dict is copied, then
`dict.update` writes the four reserved pairs in their insertion order. -/
def reportExtra (self : CommandReporter) (exit_status : Int)
    (last_lines_stdout last_lines_stderr : Str) : List (Str × PyVal) :=
  dictSet (dictSet (dictSet (dictSet (dictCopy self.extra)
    kCommand (PyVal.strList self.command))
    kExitStatus (PyVal.int exit_status))
    kLastLinesStdout (PyVal.str last_lines_stdout))
    kLastLinesStderr (PyVal.str last_lines_stderr)

/-- Models `CommandReporter.report_fail` (runner.py lines 165-187) as a
state transformer: the first component is the reporter object after the
call (`self.extra` is only read and copied, never assigned, so the
object state is returned unchanged), the second is the message send
handed to the delivery client — `none` when the method returns early at
lines 166-167 because `self.dsn is None`, in which case no client is
constructed. -/
def report_fail (self : CommandReporter) (exit_status : Int)
    (last_lines_stdout last_lines_stderr : Str) (elapsed : Int) :
    CommandReporter × Option ReportPayload :=
  if self.dsn = none then (self, none)
  else
    (self,
     some { message := failMessage self.command
            logger := "cron".data
            extra := reportExtra self exit_status last_lines_stdout last_lines_stderr
            time_spent := elapsed })

/-- Outcome of `subprocess.call` (runner.py line 146): either the child
ran to completion leaving an exit status and the bytes written to the
two temporary files, or launching it raised `FileNotFoundError` /
`OSError` with a description text (`str(exc)`). -/
inductive CallOutcome : Type where
  | completed (exitStatus : Int) (stdoutBuf stderrBuf : List Nat)
  | launchFailed (excMsg : Str)
deriving DecidableEq

/-- One write to the invoking process's own standard streams
(runner.py lines 160-161). -/
inductive EchoWrite : Type where
  | toStdout (s : Str)
  | toStderr (s : Str)
deriving DecidableEq

/-- Observable result of one `CommandReporter.run()` call: the return
value, the two extracted tails, the message send that happened (if
any), and the writes to the invoking process's streams in order. -/
structure RunResult : Type where
  exit_status : Int
  stdout_tail : Str
  stderr_tail : Str
  report : Option ReportPayload
  echoes : List EchoWrite
deriving DecidableEq

/-- The common tail of `CommandReporter.run` (runner.py lines 155-163)
once `exit_status`, `last_lines_stdout` and `last_lines_stderr` are
known: report when the exit status is nonzero, echo both tails (stdout
first) unless quiet, return the exit status. -/
def finishRun (self : CommandReporter) (exit_status : Int)
    (last_lines_stdout last_lines_stderr : Str) (elapsed : Int) : RunResult :=
  { exit_status := exit_status
    stdout_tail := last_lines_stdout
    stderr_tail := last_lines_stderr
    report :=
      if exit_status ≠ 0 then
        (report_fail self exit_status last_lines_stdout last_lines_stderr elapsed).2
      else none
    echoes :=
      if self.quiet then []
      else [EchoWrite.toStdout last_lines_stdout,
            EchoWrite.toStderr last_lines_stderr] }

/-- Models `CommandReporter.run()` (runner.py lines 140-163) as a
function of the `subprocess.call` outcome and the measured elapsed
time.  On launch failure the tails are `''` and `str(exc)` and the
status is the sentinel 127 (lines 147-150); otherwise both temporary
files run through `_get_last_lines` (lines 152-153), and a
`UnicodeDecodeError` there (modelled by `none`) propagates out of
`run`, yielding no `RunResult`. -/
def runReporter (self : CommandReporter) (outcome : CallOutcome) (elapsed : Int) :
    Option RunResult :=
  match outcome with
  | CallOutcome.launchFailed excMsg =>
    some (finishRun self 127 [] excMsg elapsed)
  | CallOutcome.completed exitStatus stdoutBuf stderrBuf =>
    match _get_last_lines self.string_max_length stdoutBuf,
          _get_last_lines self.string_max_length stderrBuf with
    | some lo, some le => some (finishRun self exitStatus lo le elapsed)
    | _, _ => none

/-- Models `sys.exit(runner.run())` (runner.py line 123): the invoking
process's own exit status is `run()`'s return value. -/
def invocationExitStatus (self : CommandReporter) (outcome : CallOutcome)
    (elapsed : Int) : Option Int :=
  (runReporter self outcome elapsed).map (fun res => res.exit_status)

/-! ### Lemmas about UTF-8 decoding. -/

/-- Each decoded character consumes at least one byte, in every DFA state. -/
theorem utf8DecodeGo_length : ∀ (bs : List Nat) (expected acc lo hi : Nat) (cs : Str),
    utf8DecodeGo expected acc lo hi bs = some cs → cs.length ≤ bs.length := by
  intro bs
  induction bs with
  | nil =>
    intro expected acc lo hi cs h
    simp only [utf8DecodeGo] at h
    split at h
    · simp only [Option.some.injEq] at h
      simp [← h]
    · exact absurd h (by simp)
  | cons b rest ih =>
    intro expected acc lo hi cs h
    simp only [utf8DecodeGo] at h
    split at h
    · split at h
      · simp only [Option.map_eq_some'] at h
        obtain ⟨cs0, hcs0, rfl⟩ := h
        simpa using Nat.succ_le_succ (ih 0 0 0 0 cs0 hcs0)
      · split at h
        · exact absurd h (by simp)
        · split at h
          · exact le_trans (ih _ _ _ _ cs h) (by simp)
          · split at h
            · exact le_trans (ih _ _ _ _ cs h) (by simp)
            · split at h
              · exact le_trans (ih _ _ _ _ cs h) (by simp)
              · split at h
                · exact le_trans (ih _ _ _ _ cs h) (by simp)
                · split at h
                  · exact le_trans (ih _ _ _ _ cs h) (by simp)
                  · split at h
                    · exact le_trans (ih _ _ _ _ cs h) (by simp)
                    · split at h
                      · exact le_trans (ih _ _ _ _ cs h) (by simp)
                      · exact absurd h (by simp)
    · split at h
      · split at h
        · simp only [Option.map_eq_some'] at h
          obtain ⟨cs0, hcs0, rfl⟩ := h
          simpa using Nat.succ_le_succ (ih 0 0 0 0 cs0 hcs0)
        · exact le_trans (ih _ _ _ _ cs h) (by simp)
      · exact absurd h (by simp)

/-- Decoding never yields more characters than there were bytes. -/
theorem utf8Decode_length (bs : List Nat) (cs : Str) (h : utf8Decode bs = some cs) :
    cs.length ≤ bs.length :=
  utf8DecodeGo_length bs 0 0 0 0 cs h

/-- Decoding the empty byte string yields the empty text. -/
theorem utf8Decode_nil : utf8Decode [] = some [] := rfl

/-! ### Lemmas about the dict model. -/

theorem dlookup_append {α : Type} (d e : List (Str × α)) (k : Str) :
    dlookup (d ++ e) k = ((dlookup d k).rec (dlookup e k) (fun v => some v)) := by
  induction d with
  | nil => simp [dlookup]
  | cons p rest ih =>
    obtain ⟨k1, v⟩ := p
    by_cases hk : k1 = k <;> simp [dlookup, hk, ih]

theorem dlookup_setInPlace_self {α : Type} (d : List (Str × α)) (k : Str) (v : α)
    (hsome : (dlookup d k).isSome = true) :
    dlookup (setInPlace d k v) k = some v := by
  induction d with
  | nil => simp [dlookup] at hsome
  | cons p rest ih =>
    obtain ⟨k1, v1⟩ := p
    by_cases hk : k1 = k
    · simp [setInPlace, dlookup, hk]
    · simp only [dlookup, if_neg hk] at hsome
      simpa [setInPlace, dlookup, hk] using ih hsome

theorem dlookup_setInPlace_ne {α : Type} (d : List (Str × α)) (k k1 : Str) (v : α)
    (hne : k1 ≠ k) : dlookup (setInPlace d k v) k1 = dlookup d k1 := by
  induction d with
  | nil => simp [setInPlace]
  | cons p rest ih =>
    obtain ⟨k2, v2⟩ := p
    by_cases hk : k2 = k
    · simp [setInPlace, dlookup, hk, Ne.symm hne, ih]
    · by_cases hk1 : k2 = k1 <;> simp [setInPlace, dlookup, hk, hk1, hne, ih]

/-- After `d[k] = v`, looking up `k` yields `v`. -/
theorem dlookup_dictSet_self {α : Type} (d : List (Str × α)) (k : Str) (v : α) :
    dlookup (dictSet d k v) k = some v := by
  unfold dictSet
  split
  · rename_i hsome
    exact dlookup_setInPlace_self d k v hsome
  · rename_i hnone
    rw [dlookup_append]
    have : dlookup d k = none := by
      cases h : dlookup d k with
      | none => rfl
      | some v0 => rw [h] at hnone; simp at hnone
    rw [this]
    simp [dlookup]

/-- After `d[k] = v`, every other key is unaffected. -/
theorem dlookup_dictSet_ne {α : Type} (d : List (Str × α)) (k k1 : Str) (v : α)
    (hne : k1 ≠ k) : dlookup (dictSet d k v) k1 = dlookup d k1 := by
  unfold dictSet
  split
  · exact dlookup_setInPlace_ne d k k1 v hne
  · rw [dlookup_append]
    cases h : dlookup d k1 with
    | none => simp [dlookup, Ne.symm hne]
    | some v0 => simp

/-! ### Helper lemmas about the run pipeline. -/

/-- Every successful `run()` result is a `finishRun` of some status and
tails. -/
theorem runReporter_shape (r : CommandReporter) (outcome : CallOutcome) (elapsed : Int)
    (res : RunResult) (h : runReporter r outcome elapsed = some res) :
    ∃ es lo le, res = finishRun r es lo le elapsed := by
  cases outcome with
  | launchFailed msg =>
    refine ⟨127, [], msg, ?_⟩
    simp only [runReporter, Option.some.injEq] at h
    exact h.symm
  | completed es ob eb =>
    cases h1 : _get_last_lines r.string_max_length ob with
    | none => simp [runReporter, h1] at h
    | some lo =>
      cases h2 : _get_last_lines r.string_max_length eb with
      | none => simp [runReporter, h1, h2] at h
      | some le =>
        refine ⟨es, lo, le, ?_⟩
        simp only [runReporter, h1, h2, Option.some.injEq] at h
        exact h.symm

/-- What the run reports: a payload exactly when the exit status is
nonzero and a destination is present. -/
theorem finishRun_report (r : CommandReporter) (es : Int) (lo le : Str) (el : Int) :
    (finishRun r es lo le el).report =
      if es ≠ 0 ∧ r.dsn ≠ none then
        some { message := failMessage r.command
               logger := "cron".data
               extra := reportExtra r es lo le
               time_spent := el }
      else none := by
  by_cases he : es = 0 <;> by_cases hd : r.dsn = none <;>
    simp [finishRun, report_fail, he, hd]

theorem reportExtra_stderr (r : CommandReporter) (es : Int) (lo le : Str) :
    dlookup (reportExtra r es lo le) kLastLinesStderr = some (PyVal.str le) :=
  dlookup_dictSet_self _ _ _

theorem reportExtra_stdout (r : CommandReporter) (es : Int) (lo le : Str) :
    dlookup (reportExtra r es lo le) kLastLinesStdout = some (PyVal.str lo) := by
  unfold reportExtra
  rw [dlookup_dictSet_ne _ _ _ _ (by decide)]
  exact dlookup_dictSet_self _ _ _

theorem reportExtra_exit (r : CommandReporter) (es : Int) (lo le : Str) :
    dlookup (reportExtra r es lo le) kExitStatus = some (PyVal.int es) := by
  unfold reportExtra
  rw [dlookup_dictSet_ne _ _ _ _ (by decide), dlookup_dictSet_ne _ _ _ _ (by decide)]
  exact dlookup_dictSet_self _ _ _

theorem reportExtra_command (r : CommandReporter) (es : Int) (lo le : Str) :
    dlookup (reportExtra r es lo le) kCommand = some (PyVal.strList r.command) := by
  unfold reportExtra
  rw [dlookup_dictSet_ne _ _ _ _ (by decide), dlookup_dictSet_ne _ _ _ _ (by decide),
    dlookup_dictSet_ne _ _ _ _ (by decide)]
  exact dlookup_dictSet_self _ _ _

theorem reportExtra_other (r : CommandReporter) (es : Int) (lo le : Str) (k1 : Str)
    (h1 : k1 ≠ kCommand) (h2 : k1 ≠ kExitStatus) (h3 : k1 ≠ kLastLinesStdout)
    (h4 : k1 ≠ kLastLinesStderr) :
    dlookup (reportExtra r es lo le) k1 = dlookup r.extra k1 := by
  unfold reportExtra dictCopy
  rw [dlookup_dictSet_ne _ _ _ _ h4, dlookup_dictSet_ne _ _ _ _ h3,
    dlookup_dictSet_ne _ _ _ _ h2, dlookup_dictSet_ne _ _ _ _ h1]

/-! ### Claims. -/

/-- C1 (counterexample).  The claim "a report is sent iff the
Destination is non-empty and the exit status is nonzero" is false on
the code: with the empty string as Destination (which is not `None`)
and exit status 1, `report_fail` does not return early — a client is
constructed and a send occurs. -/
theorem C1_counterexample :
    (({ dsn := some [], command := [], string_max_length := 10, quiet := true,
        extra := [] } : CommandReporter).dsn = some []) ∧
    ((runReporter
        { dsn := some [], command := [], string_max_length := 10, quiet := true,
          extra := [] }
        (CallOutcome.completed 1 [] []) 0).map
      (fun res => (res.report.isSome, res.exit_status))) = some (true, 1) := by
  decide

/-- C1 (amended).  A failure report is sent if and only if the
Destination is present (not Python `None` — an empty-string Destination
still counts) and the final exit status is nonzero (including the
launch-failure sentinel 127); when this decision rule is false, no
delivery client is constructed and no send occurs. -/
theorem C1_report_iff_dsn_present (r : CommandReporter) (outcome : CallOutcome)
    (elapsed : Int) (res : RunResult) (h : runReporter r outcome elapsed = some res) :
    res.report.isSome = true ↔ (r.dsn ≠ none ∧ res.exit_status ≠ 0) := by
  obtain ⟨es, lo, le, rfl⟩ := runReporter_shape r outcome elapsed res h
  rw [finishRun_report]
  by_cases he : es = 0 <;> by_cases hd : r.dsn = none <;> simp [finishRun, he, hd]

/-- C1 (witness): with no Destination and exit status 3, the decision
rule is false and no send occurs. -/
theorem C1_witness :
    ∃ res, runReporter
      ({ dsn := none, command := [], string_max_length := 10, quiet := true,
         extra := [] } : CommandReporter)
      (CallOutcome.completed 3 [] []) 0 = some res ∧ res.report.isSome = false := by
  refine ⟨_, rfl, ?_⟩
  have h := C1_report_iff_dsn_present
    { dsn := none, command := [], string_max_length := 10, quiet := true, extra := [] }
    (CallOutcome.completed 3 [] []) 0 _ rfl
  have h2 : ¬ ((finishRun
      { dsn := none, command := [], string_max_length := 10, quiet := true, extra := [] }
      3 [] [] 0).report.isSome = true) := by
    rw [h]
    simp
  simpa using h2

/-- C3.  A launch failure does not raise: the run yields exit status
127, an empty stdout tail, and the failure's description text as the
(non-empty) stderr tail, and the invoking process's own exit status is
also 127. -/
theorem C3_launch_failure (r : CommandReporter) (excMsg : Str) (elapsed : Int)
    (hm : excMsg ≠ []) :
    ∃ res, runReporter r (CallOutcome.launchFailed excMsg) elapsed = some res ∧
      res.exit_status = 127 ∧ res.stdout_tail = [] ∧ res.stderr_tail = excMsg ∧
      res.stderr_tail ≠ [] ∧
      invocationExitStatus r (CallOutcome.launchFailed excMsg) elapsed = some 127 :=
  ⟨_, rfl, rfl, rfl, rfl, hm, rfl⟩

/-- C3 (witness) at a concrete reporter and failure description. -/
theorem C3_witness :
    ("boom".data ≠ ([] : Str)) ∧
    (∃ res, runReporter
        ({ dsn := some "d".data, command := ["nope".data], string_max_length := 4096,
           quiet := false, extra := [] } : CommandReporter)
        (CallOutcome.launchFailed "boom".data) 5 = some res ∧
      res.exit_status = 127 ∧ res.stdout_tail = [] ∧ res.stderr_tail = "boom".data ∧
      res.stderr_tail ≠ [] ∧
      invocationExitStatus
        { dsn := some "d".data, command := ["nope".data], string_max_length := 4096,
          quiet := false, extra := [] }
        (CallOutcome.launchFailed "boom".data) 5 = some 127) :=
  ⟨by decide,
   C3_launch_failure
     { dsn := some "d".data, command := ["nope".data], string_max_length := 4096,
       quiet := false, extra := [] }
     "boom".data 5 (by decide)⟩

/-- C4.  In the report payload's extra metadata, the caller-supplied
mapping is the base, extended with the four reserved keys whose values
always reflect the actual run; every non-colliding caller key is
preserved. -/
theorem C4_extra_precedence (r : CommandReporter) (es : Int) (lo le : Str) (el : Int)
    (hdsn : r.dsn ≠ none) :
    ∃ p, (report_fail r es lo le el).2 = some p ∧
      dlookup p.extra kCommand = some (PyVal.strList r.command) ∧
      dlookup p.extra kExitStatus = some (PyVal.int es) ∧
      dlookup p.extra kLastLinesStdout = some (PyVal.str lo) ∧
      dlookup p.extra kLastLinesStderr = some (PyVal.str le) ∧
      ∀ k1, k1 ≠ kCommand → k1 ≠ kExitStatus → k1 ≠ kLastLinesStdout →
        k1 ≠ kLastLinesStderr → dlookup p.extra k1 = dlookup r.extra k1 := by
  have h2 : (report_fail r es lo le el).2 =
      some { message := failMessage r.command
             logger := "cron".data
             extra := reportExtra r es lo le
             time_spent := el } := by
    unfold report_fail
    rw [if_neg hdsn]
  exact ⟨_, h2, reportExtra_command r es lo le, reportExtra_exit r es lo le,
    reportExtra_stdout r es lo le, reportExtra_stderr r es lo le,
    fun k1 hk1 hk2 hk3 hk4 => reportExtra_other r es lo le k1 hk1 hk2 hk3 hk4⟩

/-- C4 (witness): the caller dict defines `exit_status` with value 99
and a private key `user`; the reserved value 2 wins and `user` is
preserved. -/
theorem C4_witness :
    (({ dsn := some "d".data, command := ["c".data], string_max_length := 10,
        quiet := false,
        extra := [(kExitStatus, PyVal.int 99), ("user".data, PyVal.str "bob".data)] }
       : CommandReporter).dsn ≠ none) ∧
    (∃ p, (report_fail
        { dsn := some "d".data, command := ["c".data], string_max_length := 10,
          quiet := false,
          extra := [(kExitStatus, PyVal.int 99), ("user".data, PyVal.str "bob".data)] }
        2 "o".data "e".data 7).2 = some p ∧
      dlookup p.extra kExitStatus = some (PyVal.int 2) ∧
      dlookup p.extra ("user".data) = some (PyVal.str "bob".data)) := by
  refine ⟨by decide, ?_⟩
  obtain ⟨p, hp, hcmd, hes, hlo, hle, hrest⟩ := C4_extra_precedence
    { dsn := some "d".data, command := ["c".data], string_max_length := 10,
      quiet := false,
      extra := [(kExitStatus, PyVal.int 99), ("user".data, PyVal.str "bob".data)] }
    2 "o".data "e".data 7 (by decide)
  refine ⟨p, hp, hes, ?_⟩
  rw [hrest ("user".data) (by decide) (by decide) (by decide) (by decide)]
  decide

/-- C6.  When quiet, nothing is written to the invoking process's
streams; when not quiet, exactly the two bounded tails are written,
stdout tail first. -/
theorem C6_quiet_echo (r : CommandReporter) (outcome : CallOutcome) (elapsed : Int)
    (res : RunResult) (h : runReporter r outcome elapsed = some res) :
    (r.quiet = true → res.echoes = []) ∧
    (r.quiet = false → res.echoes =
      [EchoWrite.toStdout res.stdout_tail, EchoWrite.toStderr res.stderr_tail]) := by
  obtain ⟨es, lo, le, rfl⟩ := runReporter_shape r outcome elapsed res h
  constructor <;> intro hq <;> simp [finishRun, hq]

/-- C6 (witness) at a non-quiet reporter on a launch failure. -/
theorem C6_witness :
    ∃ res, runReporter
      ({ dsn := none, command := [], string_max_length := 10, quiet := false,
         extra := [] } : CommandReporter)
      (CallOutcome.launchFailed "x".data) 0 = some res ∧
    res.echoes = [EchoWrite.toStdout res.stdout_tail, EchoWrite.toStderr res.stderr_tail] :=
  ⟨_, rfl,
    (C6_quiet_echo
      { dsn := none, command := [], string_max_length := 10, quiet := false, extra := [] }
      (CallOutcome.launchFailed "x".data) 0 _ rfl).2 rfl⟩

/-- C9.  `report_fail` never mutates the caller-supplied extra mapping:
the reserved keys are written into a copy, so the mapping held by the
reporter is the same before and after the call. -/
theorem C9_report_fail_no_mutation (r : CommandReporter) (es : Int) (lo le : Str)
    (el : Int) : ((report_fail r es lo le el).1).extra = r.extra := by
  unfold report_fail
  split <;> rfl

/-- C10.  The tails echoed to the invoking process's streams are the
very strings placed in the report under `last_lines_stdout` and
`last_lines_stderr`: one extraction result per stream serves both. -/
theorem C10_report_tails_match_echo (r : CommandReporter) (outcome : CallOutcome)
    (elapsed : Int) (res : RunResult) (p : ReportPayload)
    (h : runReporter r outcome elapsed = some res) (hp : res.report = some p) :
    dlookup p.extra kLastLinesStdout = some (PyVal.str res.stdout_tail) ∧
    dlookup p.extra kLastLinesStderr = some (PyVal.str res.stderr_tail) ∧
    (r.quiet = false → res.echoes =
      [EchoWrite.toStdout res.stdout_tail, EchoWrite.toStderr res.stderr_tail]) := by
  obtain ⟨es, lo, le, rfl⟩ := runReporter_shape r outcome elapsed res h
  rw [finishRun_report] at hp
  by_cases hc : (es ≠ 0 ∧ r.dsn ≠ none)
  · rw [if_pos hc] at hp
    have hpe : p.extra = reportExtra r es lo le := by
      have h3 := Option.some.inj hp
      rw [← h3]
    refine ⟨?_, ?_, ?_⟩
    · rw [hpe]
      exact reportExtra_stdout r es lo le
    · rw [hpe]
      exact reportExtra_stderr r es lo le
    · intro hq
      simp [finishRun, hq]
  · rw [if_neg hc] at hp
    exact absurd hp (by simp)

/-- C2 (counterexample).  The claim bounds the truncated text by L for
every positive limit: at L = 1 with a 1-byte store the extractor seeks
past the end, reads nothing, and still returns the 3-character marker,
whose length exceeds L. -/
theorem C2_counterexample :
    (0 : Int) < 1 ∧ (1 : Int) ≤ (([97] : List Nat).length : Int) ∧
    _get_last_lines 1 [97] = some ellipsis ∧
    ¬ ((ellipsis.length : Int) ≤ 1) := by
  decide

/-- C2 (amended).  For a store of S bytes and positive limit L: if
S < L the extractor returns the full content decoded, with no marker
prepended; if S ≥ L the returned text starts with the 3-character
marker and its length is at most `max L 3` — that is, at most L
whenever L ≥ 3; for L < 3 the marker alone already has 3 characters. -/
theorem C2_tail_extraction (L : Int) (buf : List Nat) (hL : 0 < L) :
    ((buf.length : Int) < L → _get_last_lines L buf = utf8Decode buf) ∧
    (L ≤ (buf.length : Int) → ∀ cs, _get_last_lines L buf = some cs →
      cs.take 3 = ellipsis ∧ (cs.length : Int) ≤ max L 3) := by
  constructor
  · intro hlt
    simp only [_get_last_lines]
    rw [if_pos hlt]
  · intro hge cs h
    simp only [_get_last_lines] at h
    rw [if_neg (by omega : ¬ ((buf.length : Int) < L))] at h
    simp only [Option.map_eq_some'] at h
    obtain ⟨ds, hds, rfl⟩ := h
    have hlen := utf8Decode_length _ _ hds
    constructor
    · exact List.take_left ellipsis ds
    · rw [List.length_append]
      by_cases h3 : (3 : Int) ≤ L
      · have hple : (((buf.length : Int) + 3 - L).toNat : Int)
            = (buf.length : Int) + 3 - L := Int.toNat_of_nonneg (by omega)
        have hdl : (buf.drop (((buf.length : Int) + 3 - L).toNat)).length
            = buf.length - (((buf.length : Int) + 3 - L).toNat) := by simp
        rw [hdl] at hlen
        have hm : max L 3 = L := max_eq_left h3
        rw [hm]
        have he3 : ellipsis.length = 3 := rfl
        rw [he3]
        push_cast
        omega
      · have hp : buf.length ≤ (((buf.length : Int) + 3 - L).toNat) := by omega
        rw [List.drop_eq_nil_of_le hp, utf8Decode_nil] at hds
        have hnil : ds = [] := (Option.some.inj hds).symm
        subst hnil
        have he3 : ellipsis.length = 3 := rfl
        rw [he3]
        simp only [List.length_nil]
        omega

/-- C2 (witness) at L = 4 on a 4-byte store: the result is the marker
followed by the last byte, of length 4 = max 4 3. -/
theorem C2_witness :
    ((0 : Int) < 4 ∧ (4 : Int) ≤ (([97, 98, 99, 100] : List Nat).length : Int) ∧
      _get_last_lines 4 [97, 98, 99, 100] = some "...d".data) ∧
    ("...d".data.take 3 = ellipsis ∧ (("...d".data.length : Int)) ≤ max 4 3) :=
  ⟨⟨by decide, by decide, by decide⟩,
   (C2_tail_extraction 4 [97, 98, 99, 100] (by decide)).2 (by decide) "...d".data
     (by decide)⟩

/-- C5.  Running a command that writes 5000 `a` bytes to stdout and
exits 1, with `string_max_length = 10` and a configured Destination:
the stdout tail is `"...aaaaaaa"` (3-character marker plus 7
characters), the exit status is 1, and a report is sent carrying
`exit_status` 1 and that same tail under `last_lines_stdout`. -/
theorem C5_five_thousand_a :
    (runReporter
        ({ dsn := some "https://key@sentry/1".data, command := ["mycmd".data],
           string_max_length := 10, quiet := false, extra := [] } : CommandReporter)
        (CallOutcome.completed 1 (List.replicate 5000 97) []) 0).map
      (fun res => (res.exit_status, res.stdout_tail,
        res.report.map (fun p =>
          (dlookup p.extra kExitStatus, dlookup p.extra kLastLinesStdout)))) =
    some (1, "...aaaaaaa".data,
      some (some (PyVal.int 1), some (PyVal.str "...aaaaaaa".data))) := by
  have htail : _get_last_lines 10 (List.replicate 5000 97) = some "...aaaaaaa".data := by
    simp only [_get_last_lines, List.length_replicate]
    rw [if_neg (by decide)]
    rw [show (((5000 : Nat) : Int) + 3 - 10).toNat = 4993 from by decide]
    rw [List.drop_replicate]
    norm_num
    decide
  have herr : _get_last_lines 10 ([] : List Nat) = some [] := by decide
  simp only [runReporter, htail, herr]
  decide

/-- C8.  For every limit L with 1 ≤ L ≤ 3 and every store of at least L
bytes, the extractor returns exactly the 3-character marker (the seek
lands at or past the end of the store, so no content byte is read); in
particular for L < 3 the returned text is longer than L. -/
theorem C8_tiny_limit (L : Int) (buf : List Nat) (h1 : 1 ≤ L) (h2 : L ≤ 3)
    (h3 : L ≤ (buf.length : Int)) :
    _get_last_lines L buf = some ellipsis ∧ (L < 3 → L < (ellipsis.length : Int)) := by
  constructor
  · simp only [_get_last_lines]
    rw [if_neg (by omega : ¬ ((buf.length : Int) < L))]
    rw [List.drop_eq_nil_of_le
      (by omega : buf.length ≤ (((buf.length : Int) + 3 - L).toNat))]
    rw [utf8Decode_nil]
    simp
  · intro hlt
    have he3 : ellipsis.length = 3 := rfl
    rw [he3]
    omega

/-- C8 (witness) at L = 2 on a 2-byte store. -/
theorem C8_witness :
    ((1 : Int) ≤ 2 ∧ (2 : Int) ≤ 3 ∧ (2 : Int) ≤ (([97, 98] : List Nat).length : Int)) ∧
    (_get_last_lines 2 [97, 98] = some ellipsis ∧
      ((2 : Int) < 3 → (2 : Int) < (ellipsis.length : Int))) :=
  ⟨⟨by decide, by decide, by decide⟩,
   C8_tiny_limit 2 [97, 98] (by decide) (by decide) (by decide)⟩

/-! Prefix helpers for C7. -/

theorem dlookup_eq_none_of_not_mem {α : Type} (l : List (Str × α)) (k : Str)
    (h : k ∉ l.map Prod.fst) : dlookup l k = none := by
  induction l with
  | nil => rfl
  | cons p rest ih =>
    obtain ⟨k1, v1⟩ := p
    simp only [List.map_cons, List.mem_cons] at h
    push_neg at h
    simp [dlookup, Ne.symm h.1, ih h.2]

theorem isPrefixOf_append_self (l1 l2 : List Char) : l1.isPrefixOf (l1 ++ l2) = true := by
  rw [ List.isPrefixOf_iff_prefix]
  exact List.prefix_append l1 l2

theorem eq_append_drop_of_isPrefixOf (l1 l2 : List Char) (h : l1.isPrefixOf l2 = true) :
    l2 = l1 ++ l2.drop l1.length := by
  rw [ List.isPrefixOf_iff_prefix] at h
  obtain ⟨t, rfl⟩ := h
  rw [List.drop_left]

/-- A loop step for an env entry that does not produce `key` leaves the
lookup of `key` unchanged. -/
theorem extraFromEnvStep_other (res : List (Str × Str)) (k v key : Str)
    (h : k ≠ env_var_pfx ++ key ∨ key = []) :
    dlookup (extraFromEnvStep res k v) key = dlookup res key := by
  simp only [extraFromEnvStep]
  by_cases hpre : env_var_pfx.isPrefixOf k = true
  · rw [if_pos hpre]
    have hk : k = env_var_pfx ++ k.drop env_var_pfx.length :=
      eq_append_drop_of_isPrefixOf _ _ hpre
    by_cases hek : k.drop env_var_pfx.length ≠ []
    · rw [if_pos hek]
      apply dlookup_dictSet_ne
      intro heq
      cases h with
      | inl hne =>
        apply hne
        rw [hk, heq]
      | inr hkey =>
        apply hek
        rw [← heq, hkey]
    · rw [if_neg hek]
  · rw [if_neg hpre]

/-- A loop step for the env entry `env_var_pfx ++ key` (with `key`
nonempty) records `key ↦ v`. -/
theorem extraFromEnvStep_hit (res : List (Str × Str)) (v key : Str) (hkey : key ≠ []) :
    dlookup (extraFromEnvStep res (env_var_pfx ++ key) v) key = some v := by
  simp only [extraFromEnvStep]
  rw [if_pos (isPrefixOf_append_self env_var_pfx key), List.drop_left, if_pos hkey]
  exact dlookup_dictSet_self res key v

/-- Lookup characterization of the whole `_extra_from_env` loop over a
duplicate-free environment, for an arbitrary accumulator. -/
theorem extraFromEnvLoop_lookup (l : List (Str × Str)) :
    ∀ (res : List (Str × Str)) (key : Str), (l.map Prod.fst).Nodup →
    dlookup (extraFromEnvLoop res l) key =
      if key ≠ [] ∧ (dlookup l (env_var_pfx ++ key)).isSome = true
      then dlookup l (env_var_pfx ++ key)
      else dlookup res key := by
  induction l with
  | nil =>
    intro res key hnd
    simp [extraFromEnvLoop, dlookup]
  | cons p rest ih =>
    intro res key hnd
    obtain ⟨k, v⟩ := p
    simp only [List.map_cons, List.nodup_cons] at hnd
    obtain ⟨hk_not, hnd_rest⟩ := hnd
    simp only [extraFromEnvLoop]
    rw [ih (extraFromEnvStep res k v) key hnd_rest]
    by_cases hkey : key = []
    · subst hkey
      simp only [ne_eq, not_true_eq_false, false_and, if_false]
      exact extraFromEnvStep_other res k v [] (Or.inr rfl)
    · by_cases hk : k = env_var_pfx ++ key
      · subst hk
        have hnone : dlookup rest (env_var_pfx ++ key) = none :=
          dlookup_eq_none_of_not_mem rest _ hk_not
        rw [hnone]
        simp only [Option.isSome_none, Bool.false_eq_true, and_false, if_false]
        rw [extraFromEnvStep_hit res v key hkey]
        simp [dlookup, hkey]
      · rw [extraFromEnvStep_other res k v key (Or.inl hk)]
        have hstep : dlookup ((k, v) :: rest) (env_var_pfx ++ key)
            = dlookup rest (env_var_pfx ++ key) := by
          simp [dlookup, hk]
        rw [hstep]

/-- C7.  Over a duplicate-free environment, the extra-metadata seed
contains exactly the entries whose env key is the prefix followed by a
nonempty remainder: looking up `key` in the result finds precisely the
env value stored under `CRON_SENTRY_EXTRA_` ++ `key` (unchanged), and
the empty key (an env key that is exactly the prefix) is never
present. -/
theorem C7_extra_from_env (env : List (Str × Str)) (hnd : (env.map Prod.fst).Nodup)
    (key : Str) :
    dlookup (_extra_from_env env) key =
      if key = [] then none else dlookup env (env_var_pfx ++ key) := by
  unfold _extra_from_env
  rw [extraFromEnvLoop_lookup env [] key hnd]
  by_cases hkey : key = []
  · simp [hkey, dlookup]
  · simp only [ne_eq, hkey, not_false_eq_true, true_and, if_neg hkey]
    cases h : dlookup env (env_var_pfx ++ key) with
    | none => simp [dlookup]
    | some v => simp

/-- C7 (witness): `CRON_SENTRY_EXTRA_USER=bob` yields `USER ↦ bob`,
while `HOME` and the bare prefix (empty stripped key) contribute
nothing. -/
theorem C7_witness :
    ((([("CRON_SENTRY_EXTRA_USER".data, "bob".data), ("HOME".data, "h".data),
        ("CRON_SENTRY_EXTRA_".data, "x".data)] : List (Str × Str)).map Prod.fst).Nodup) ∧
    dlookup (_extra_from_env
        [("CRON_SENTRY_EXTRA_USER".data, "bob".data), ("HOME".data, "h".data),
         ("CRON_SENTRY_EXTRA_".data, "x".data)]) "USER".data = some "bob".data ∧
    dlookup (_extra_from_env
        [("CRON_SENTRY_EXTRA_USER".data, "bob".data), ("HOME".data, "h".data),
         ("CRON_SENTRY_EXTRA_".data, "x".data)]) [] = none := by
  refine ⟨by decide, ?_, ?_⟩
  · rw [C7_extra_from_env
      [("CRON_SENTRY_EXTRA_USER".data, "bob".data), ("HOME".data, "h".data),
       ("CRON_SENTRY_EXTRA_".data, "x".data)] (by decide) "USER".data]
    decide
  · rw [C7_extra_from_env
      [("CRON_SENTRY_EXTRA_USER".data, "bob".data), ("HOME".data, "h".data),
       ("CRON_SENTRY_EXTRA_".data, "x".data)] (by decide) []]
    decide

/-- C10 (witness): a concrete failing run whose report carries the same
tails that are echoed. -/
theorem C10_witness :
    ∃ res p, runReporter
        ({ dsn := some "d".data, command := ["c".data], string_max_length := 10,
           quiet := false, extra := [] } : CommandReporter)
        (CallOutcome.completed 1 [104] [105]) 0 = some res ∧
      res.report = some p ∧
      (dlookup p.extra kLastLinesStdout = some (PyVal.str res.stdout_tail) ∧
       dlookup p.extra kLastLinesStderr = some (PyVal.str res.stderr_tail) ∧
       res.echoes =
         [EchoWrite.toStdout res.stdout_tail, EchoWrite.toStderr res.stderr_tail]) := by
  obtain ⟨h1, h2, h3⟩ := C10_report_tails_match_echo
    { dsn := some "d".data, command := ["c".data], string_max_length := 10,
      quiet := false, extra := [] }
    (CallOutcome.completed 1 [104] [105]) 0 _ _ rfl rfl
  exact ⟨_, _, rfl, rfl, h1, h2, h3 rfl⟩

end CronSentry
